import Mathlib

/-!
Shallow embedding of `scripts/server_versions.py`: a registry version
resolver that reads a TOML configuration mapping component names to
fetch specifications, queries each upstream (npm, pypi, github releases,
or a custom shell probe) concurrently, and emits a JSON report of the
successfully resolved versions on stdout, with per-component failure
diagnostics on stderr.

Python values (TOML tables and JSON bodies) are embedded as `PyVal`;
the network, the environment token and subprocess execution are an
oracle `Env`; exceptions are `Except String`.
-/

/-- Embedding of the Python/TOML/JSON values the script manipulates:
strings, booleans, integers, None/null, lists and string-keyed dicts. -/
inductive PyVal where
  | none : PyVal
  | bool (b : Bool) : PyVal
  | int (n : Int) : PyVal
  | str (s : String) : PyVal
  | list (xs : List PyVal) : PyVal
  | dict (xs : List (String × PyVal)) : PyVal

/-- Python truthiness of a value (`if config.get("strip_v"):`). -/
def PyVal.truthy : PyVal → Bool
  | .none => false
  | .bool b => b
  | .int n => n ≠ 0
  | .str s => s ≠ ""
  | .list xs => !xs.isEmpty
  | .dict xs => !xs.isEmpty

/-- Python `x == "lit"` where x may be any value or absent (`None`):
only a string equal to the literal compares equal. -/
def optEqStr (v : Option PyVal) (lit : String) : Bool :=
  match v with
  | some (.str s) => s = lit
  | _ => false

/-- Python truthiness of `d.get(k)`: `None` (absent) is falsy. -/
def optTruthy (v : Option PyVal) : Bool :=
  match v with
  | some x => x.truthy
  | Option.none => false

/-- Python whitespace characters handled by `str.strip()`. -/
def pyWhitespace : List Char := [' ', '\t', '\n', '\r', '\x0b', '\x0c']

/-- Python `s.strip()`: remove leading and trailing whitespace. -/
def pyStrip (s : String) : String :=
  let l := s.data.dropWhile (pyWhitespace.contains ·)
  String.mk ((l.reverse.dropWhile (pyWhitespace.contains ·)).reverse)

/-- Python `s.lstrip("v")`: remove ALL leading occurrences of the
character `v` (not merely one). -/
def pyLstripV (s : String) : String :=
  String.mk (s.data.dropWhile (· = 'v'))

/-- Python `repr()` restricted to the embedded values (what `str()`
delegates to for containers; strings are quoted with `'`). -/
def pyRepr : PyVal → String
  | .none => "None"
  | .bool b => if b then "True" else "False"
  | .int n => toString n
  | .str s => "\x27" ++ s ++ "\x27"
  | .list xs => "[" ++ String.intercalate ", " (xs.attach.map fun x => pyRepr x.1) ++ "]"
  | .dict xs =>
      "\x7b" ++
        String.intercalate ", "
          (xs.attach.map fun kv => "\x27" ++ kv.1.1 ++ "\x27: " ++ pyRepr kv.1.2) ++
      "\x7d"
decreasing_by
  all_goals simp_wf
  · have h := List.sizeOf_lt_of_mem x.2
    omega
  · obtain ⟨⟨a, b⟩, hm⟩ := kv
    have h := List.sizeOf_lt_of_mem hm
    simp only [Prod.mk.sizeOf_spec] at h
    simp at h ⊢
    omega

/-- Python `str()` of a value (used when a params field is interpolated
into a URL or passed where a string is expected). -/
def pyStr : PyVal → String
  | .str s => s
  | v => pyRepr v

/-- An HTTP response as seen by the script: a status code and a body
that either parses as JSON (`some`) or does not (`none`, in which case
`r.json()` raises). -/
structure HttpResponse where
  status : Nat
  body : Option PyVal

/-- Oracle for the effects of one run, held fixed across a run: the
network (`httpx` GET by URL and request headers, returning a response or
raising a transport error carrying a message), the optional
`GITHUB_TOKEN` environment variable, and subprocess execution of a shell
command (returning exit code, stdout and stderr). -/
structure Env where
  http : String → List (String × String) → Except String HttpResponse
  ghToken : Option String
  runCmd : String → Int × String × String

/-- `httpx.Response.raise_for_status`: raise unless the status code is a
2xx success. -/
def raise_for_status (r : HttpResponse) : Except String HttpResponse :=
  if 200 ≤ r.status ∧ r.status < 300 then .ok r
  else .error ("HTTPStatusError: status " ++ toString r.status)

/-- `r.json()`: the decoded body, raising when the body is not JSON. -/
def respJson (r : HttpResponse) : Except String PyVal :=
  match r.body with
  | some j => .ok j
  | Option.none => .error "JSONDecodeError: invalid JSON body"

/-- Python subscript `j[k]` for a string key: `KeyError` (whose `str()`
is the quoted key) on a dict without the key, `TypeError` on a
non-dict. -/
def pySubscript (j : PyVal) (k : String) : Except String PyVal :=
  match j with
  | .dict d =>
      match d.lookup k with
      | some v => .ok v
      | Option.none => .error ("\x27" ++ k ++ "\x27")
  | _ => .error "TypeError: value is not subscriptable by a string key"

/-- `get_latest_npm`: GET the npm registry's `<package>/latest` document
and return its `version` field. -/
def get_latest_npm (env : Env) (package : String) : Except String PyVal := do
  let r ← env.http ("https://registry.npmjs.org/" ++ package ++ "/latest") []
  let r ← raise_for_status r
  let j ← respJson r
  pySubscript j "version"

/-- `get_latest_pypi`: GET pypi's JSON document for the package and
return its `info.version` field. -/
def get_latest_pypi (env : Env) (package : String) : Except String PyVal := do
  let r ← env.http ("https://pypi.org/pypi/" ++ package ++ "/json") []
  let r ← raise_for_status r
  let j ← respJson r
  let info ← pySubscript j "info"
  pySubscript info "version"

/-- Request headers for the github API call: a User-Agent, plus a Bearer
Authorization header when `GITHUB_TOKEN` is present and truthy (the
walrus `if token := os.environ.get("GITHUB_TOKEN"):`). -/
def githubHeaders (env : Env) : List (String × String) :=
  let base := [("User-Agent", "lsp-client-updater")]
  match env.ghToken with
  | some t => if t ≠ "" then base ++ [("Authorization", "Bearer " ++ t)] else base
  | Option.none => base

/-- `get_latest_github_release`: GET the repo's latest release and
return its `tag_name` field. -/
def get_latest_github_release (env : Env) (repo : String) : Except String PyVal := do
  let r ← env.http ("https://api.github.com/repos/" ++ repo ++ "/releases/latest")
      (githubHeaders env)
  let r ← raise_for_status r
  let j ← respJson r
  pySubscript j "tag_name"

/-- `get_latest_custom`: run the shell command; non-zero exit raises
`RuntimeError("Command failed: " + stderr.strip())`, otherwise the
result is stdout stripped of surrounding whitespace. -/
def get_latest_custom (env : Env) (command : String) : Except String String :=
  let (returncode, stdout, stderr) := env.runCmd command
  if returncode ≠ 0 then .error ("Command failed: " ++ pyStrip stderr)
  else .ok (pyStrip stdout)

/-- The body of `fetch_version`'s `try` block: dispatch on
`config.get("type")`. Recognized kinds produce `some version` or raise;
an unrecognized kind returns `None` without raising (the early
`return server, None`). -/
def fetch_version_core (env : Env) (config : List (String × PyVal)) :
    Except String (Option PyVal) := do
  let t := config.lookup "type"
  if optEqStr t "npm" then
    let pkg ← pySubscript (.dict config) "package"
    let v ← get_latest_npm env (pyStr pkg)
    return some v
  else if optEqStr t "pypi" then
    let pkg ← pySubscript (.dict config) "package"
    let v ← get_latest_pypi env (pyStr pkg)
    return some v
  else if optEqStr t "github" then
    let repo ← pySubscript (.dict config) "repo"
    let v ← get_latest_github_release env (pyStr repo)
    if optTruthy (config.lookup "strip_v") then
      match v with
      | .str s => return some (.str (pyLstripV s))
      | _ => .error "AttributeError: value has no attribute lstrip"
    else
      return some v
  else if optEqStr t "custom" then
    let cmd ← pySubscript (.dict config) "command"
    match cmd with
    | .str c =>
        let v ← get_latest_custom env c
        return some (.str v)
    | _ => .error "TypeError: command is not a string"
  else
    return none

/-- `fetch_version`: the per-component operation. Returns the
`(server, version-or-None)` tuple together with the list of diagnostic
lines it printed to stderr (one line when the `try` body raised, none
otherwise). -/
def fetch_version (env : Env) (server : String) (config : List (String × PyVal)) :
    (String × Option PyVal) × List String :=
  match fetch_version_core env config with
  | .ok v => ((server, v), [])
  | .error e => ((server, Option.none), ["Error fetching version for " ++ server ++ ": " ++ e])

/-- The object-valued entries of the parsed configuration: `main` builds
one fetch task per `(server, config)` with `isinstance(config, dict)`. -/
def objEntries (wiki : List (String × PyVal)) : List (String × List (String × PyVal)) :=
  wiki.filterMap fun sv =>
    match sv.2 with
    | .dict c => some (sv.1, c)
    | _ => Option.none

/-- Sequential execution of all fetch tasks, in configuration order. -/
def seqRun (env : Env) (specs : List (String × List (String × PyVal))) :
    List ((String × Option PyVal) × List String) :=
  specs.map fun sc => fetch_version env sc.1 sc.2

/-- One scheduling step of the cooperative event loop: task `i` (if it
exists) runs to completion and deposits its result in slot `i` of the
`asyncio.gather` result array. Tasks share no mutable state, so the
outcome written is independent of when the task is scheduled. -/
def gatherStep (env : Env) (specs : List (String × List (String × PyVal)))
    (acc : List (Option ((String × Option PyVal) × List String))) (i : Nat) :
    List (Option ((String × Option PyVal) × List String)) :=
  match specs[i]? with
  | some sc => acc.set i (some (fetch_version env sc.1 sc.2))
  | Option.none => acc

/-- `asyncio.gather` under an arbitrary completion order: every task
completes once, in the order given by `order`, and the results are
collected positionally. -/
def gatherRun (env : Env) (specs : List (String × List (String × PyVal)))
    (order : List Nat) : List (Option ((String × Option PyVal) × List String)) :=
  order.foldl (gatherStep env specs) (List.replicate specs.length Option.none)

/-- Python dict assignment `d[k] = v` on an association list with unique
keys: update in place when the key exists, append otherwise. -/
def dictInsert : List (String × PyVal) → String → PyVal → List (String × PyVal)
  | [], k, v => [(k, v)]
  | (k0, v0) :: rest, k, v =>
      if k0 = k then (k, v) :: rest else (k0, v0) :: dictInsert rest k v

/-- The dict comprehension
`{s: v for s, v in results if v is not None}`. -/
def buildVersions (results : List (String × Option PyVal)) : List (String × PyVal) :=
  results.foldl
    (fun d sv =>
      match sv.2 with
      | some v => dictInsert d sv.1 v
      | Option.none => d)
    []

/-- Lowercase hex digit, as produced by `json.dump`'s `\uXXXX` escapes. -/
def hexDigit (n : Nat) : Char :=
  if n < 10 then Char.ofNat (48 + n) else Char.ofNat (87 + n)

/-- Four lowercase hex digits. -/
def toHex4 (n : Nat) : String :=
  String.mk [hexDigit (n / 4096 % 16), hexDigit (n / 256 % 16),
             hexDigit (n / 16 % 16), hexDigit (n % 16)]

/-- `json.dump` escaping of one character (default `ensure_ascii=True`:
control and non-ASCII characters become `\uXXXX`, astral characters a
surrogate pair). -/
def jsonEscapeChar (c : Char) : String :=
  if c = '"' then "\\\""
  else if c = '\\' then "\\\\"
  else if c = '\n' then "\\n"
  else if c = '\r' then "\\r"
  else if c = '\t' then "\\t"
  else if c.toNat = 8 then "\\b"
  else if c.toNat = 12 then "\\f"
  else if c.toNat < 32 ∨ c.toNat > 126 then
    if c.toNat ≤ 65535 then "\\u" ++ toHex4 c.toNat
    else
      let n := c.toNat - 65536
      "\\u" ++ toHex4 (55296 + n / 1024) ++ "\\u" ++ toHex4 (56320 + n % 1024)
  else String.mk [c]

/-- `json.dump` escaping of a string (without the surrounding quotes). -/
def jsonEscape (s : String) : String :=
  String.join (s.data.map jsonEscapeChar)

/-- `n` spaces. -/
def spaces (n : Nat) : String :=
  String.mk (List.replicate n ' ')

/-- `json.dump(v, sys.stdout, indent=2)` rendering of an embedded value
at nesting depth `level`. -/
def renderJson (level : Nat) : PyVal → String
  | .none => "null"
  | .bool b => if b then "true" else "false"
  | .int n => toString n
  | .str s => "\"" ++ jsonEscape s ++ "\""
  | .list [] => "[]"
  | .list xs =>
      "[\n" ++
        String.intercalate ",\n"
          (xs.attach.map fun x => spaces (2 * (level + 1)) ++ renderJson (level + 1) x.1) ++
      "\n" ++ spaces (2 * level) ++ "]"
  | .dict [] => "\x7b\x7d"
  | .dict xs =>
      "\x7b\n" ++
        String.intercalate ",\n"
          (xs.attach.map fun kv =>
            spaces (2 * (level + 1)) ++ "\"" ++ jsonEscape kv.1.1 ++ "\": " ++
              renderJson (level + 1) kv.1.2) ++
      "\n" ++ spaces (2 * level) ++ "\x7d"
termination_by v => sizeOf v
decreasing_by
  all_goals simp_wf
  · have h := List.sizeOf_lt_of_mem x.2
    omega
  · obtain ⟨⟨a, b⟩, hm⟩ := kv
    have h := List.sizeOf_lt_of_mem hm
    simp only [Prod.mk.sizeOf_spec] at h
    simp at h ⊢
    omega

/-- The serialized report: `json.dump(versions, sys.stdout, indent=2)`. -/
def renderReport (versions : List (String × PyVal)) : String :=
  renderJson 0 (.dict versions)

/-- The `(server, version-or-None)` results of a run, in task
(configuration) order, as returned by `asyncio.gather`. -/
def mainResults (env : Env) (wiki : List (String × PyVal)) : List (String × Option PyVal) :=
  (seqRun env (objEntries wiki)).map (·.1)

/-- The `versions` dict assembled by `main`. -/
def versionsOf (env : Env) (wiki : List (String × PyVal)) : List (String × PyVal) :=
  buildVersions (mainResults env wiki)

/-- Observable output of one run of the process. -/
structure RunOutput where
  stdout : String
  stderrLines : List String
  exitCode : Nat

/-- `main` (given the parsed configuration `wiki`): run every fetch task
to completion, assemble the report from the non-None results, dump it as
JSON to stdout and `print()` a trailing newline; return normally, so the
process exits with status 0. Diagnostic lines are collected per task in
task order (their interleaving on the real stream is
scheduler-dependent; no claim depends on their order). -/
def runMain (env : Env) (wiki : List (String × PyVal)) : RunOutput :=
  let results := seqRun env (objEntries wiki)
  { stdout := renderReport (buildVersions (results.map (·.1))) ++ "\n"
    stderrLines := (results.map (·.2)).flatten
    exitCode := 0 }

/-- Whether a config's declared `type` is one of the four kinds the
dispatch chain recognizes. -/
def recognizedKind (config : List (String × PyVal)) : Bool :=
  optEqStr (config.lookup "type") "npm" ||
  optEqStr (config.lookup "type") "pypi" ||
  optEqStr (config.lookup "type") "github" ||
  optEqStr (config.lookup "type") "custom"

/-- Modelled from the spec (claim wording, for comparison with the
code): "the release tag with a single leading non-numeric prefix
character dropped". -/
def specDropOneLeadingNonNumeric (s : String) : String :=
  match s.data with
  | [] => s
  | c :: rest => if c.isDigit then s else String.mk rest

/-- An environment in which every upstream interaction fails: the
network raises a transport error and every spawned command exits 1. -/
def envNetFail : Env where
  http := fun _ _ => .error "ConnectError: network unreachable"
  ghToken := Option.none
  runCmd := fun _ => (1, "", "probe exploded\n")

/-- An environment whose every HTTP document is an npm-style body with
`version` field `"1.3.0"`. -/
def envNpm130 : Env where
  http := fun _ _ => .ok ⟨200, some (.dict [("version", .str "1.3.0")])⟩
  ghToken := Option.none
  runCmd := fun _ => (0, "", "")

/-- An environment whose every HTTP document is a github release body
with tag `"vv2.3.1"` (two leading v characters). -/
def envGhTagVV : Env where
  http := fun _ _ => .ok ⟨200, some (.dict [("tag_name", .str "vv2.3.1")])⟩
  ghToken := Option.none
  runCmd := fun _ => (0, "", "")

/-- An environment whose every HTTP document is a github release body
with tag `"v2.3.1"`. -/
def envGhTagV : Env where
  http := fun _ _ => .ok ⟨200, some (.dict [("tag_name", .str "v2.3.1")])⟩
  ghToken := Option.none
  runCmd := fun _ => (0, "", "")

/-- An environment in which every spawned command succeeds with stdout
`" 1.2 \n"` and empty stderr. -/
def envCmdOk : Env where
  http := fun _ _ => .error "ConnectError: network unreachable"
  ghToken := Option.none
  runCmd := fun _ => (0, " 1.2 \n", "")

/-- An environment in which every spawned command exits 1 with stderr
`"boom\n"`. -/
def envCmdBoom : Env where
  http := fun _ _ => .error "ConnectError: network unreachable"
  ghToken := Option.none
  runCmd := fun _ => (1, "out", "boom\n")

/-- An npm fetch specification for package `left-pad`. -/
def cfgNpm : List (String × PyVal) := [("type", .str "npm"), ("package", .str "left-pad")]

/-- A fetch specification with an unrecognized kind. -/
def cfgUnknown : List (String × PyVal) := [("type", .str "cargo")]

/-- A github fetch specification with `strip_v = true`. -/
def cfgGhStrip : List (String × PyVal) :=
  [("type", .str "github"), ("repo", .str "o/r"), ("strip_v", .bool true)]

/-- A github fetch specification without `strip_v`. -/
def cfgGhPlain : List (String × PyVal) :=
  [("type", .str "github"), ("repo", .str "o/r")]

/-- A custom-probe fetch specification. -/
def cfgCustom : List (String × PyVal) :=
  [("type", .str "custom"), ("command", .str "probe --version")]

/-- A github fetch specification missing its required `repo` field. -/
def cfgGhNoRepo : List (String × PyVal) := [("type", .str "github")]

/-! ### General lemmas about the embedding -/

theorem optEqStr_eq_true_iff (v : Option PyVal) (lit : String) :
    optEqStr v lit = true ↔ v = some (.str lit) := by
  unfold optEqStr
  match v with
  | Option.none => simp
  | some (.str s) => simp [decide_eq_true_eq]
  | some .none | some (.bool _) | some (.int _) | some (.list _) | some (.dict _) => simp

theorem fetch_version_fst (env : Env) (s : String) (c : List (String × PyVal)) :
    (fetch_version env s c).1.1 = s := by
  unfold fetch_version
  cases fetch_version_core env c <;> rfl

theorem fetch_version_of_core_ok (env : Env) (s : String) (c : List (String × PyVal))
    (v : Option PyVal) (h : fetch_version_core env c = .ok v) :
    fetch_version env s c = ((s, v), []) := by
  simp [fetch_version, h]

theorem fetch_version_of_core_error (env : Env) (s : String) (c : List (String × PyVal))
    (e : String) (h : fetch_version_core env c = .error e) :
    fetch_version env s c = ((s, Option.none),
      ["Error fetching version for " ++ s ++ ": " ++ e]) := by
  simp [fetch_version, h]

theorem core_unrecognized (env : Env) (c : List (String × PyVal))
    (h : recognizedKind c = false) : fetch_version_core env c = .ok Option.none := by
  unfold recognizedKind at h
  simp only [Bool.or_eq_false_iff] at h
  obtain ⟨⟨⟨h1, h2⟩, h3⟩, h4⟩ := h
  unfold fetch_version_core
  simp [h1, h2, h3, h4, Except.pure, pure]

theorem core_ok_isSome (env : Env) (c : List (String × PyVal)) (v : Option PyVal)
    (hrec : recognizedKind c = true) (hok : fetch_version_core env c = .ok v) :
    ∃ w, v = some w := by
  unfold fetch_version_core at hok
  cases hnpm : optEqStr (List.lookup "type" c) "npm" with
  | true =>
    simp only [hnpm, if_true] at hok
    cases hp : pySubscript (PyVal.dict c) "package" with
    | error e => simp [hp, Except.instMonad, Except.bind, Except.map, Except.pure, pure] at hok
    | ok pkg =>
      cases hn : get_latest_npm env (pyStr pkg) with
      | error e =>
        simp [hp, hn, Except.instMonad, Except.bind, Except.map, Except.pure, pure] at hok
      | ok w =>
        simp [hp, hn, Except.instMonad, Except.bind, Except.map, Except.pure, pure] at hok
        exact ⟨w, hok.symm⟩
  | false =>
  simp only [hnpm, Bool.false_eq_true, if_false] at hok
  cases hpypi : optEqStr (List.lookup "type" c) "pypi" with
  | true =>
    simp only [hpypi, if_true] at hok
    cases hp : pySubscript (PyVal.dict c) "package" with
    | error e => simp [hp, Except.instMonad, Except.bind, Except.map, Except.pure, pure] at hok
    | ok pkg =>
      cases hn : get_latest_pypi env (pyStr pkg) with
      | error e =>
        simp [hp, hn, Except.instMonad, Except.bind, Except.map, Except.pure, pure] at hok
      | ok w =>
        simp [hp, hn, Except.instMonad, Except.bind, Except.map, Except.pure, pure] at hok
        exact ⟨w, hok.symm⟩
  | false =>
  simp only [hpypi, Bool.false_eq_true, if_false] at hok
  cases hgh : optEqStr (List.lookup "type" c) "github" with
  | true =>
    simp only [hgh, if_true] at hok
    cases hp : pySubscript (PyVal.dict c) "repo" with
    | error e => simp [hp, Except.instMonad, Except.bind, Except.map, Except.pure, pure] at hok
    | ok repo =>
      cases hg : get_latest_github_release env (pyStr repo) with
      | error e =>
        simp [hp, hg, Except.instMonad, Except.bind, Except.map, Except.pure, pure] at hok
      | ok w =>
        simp only [hp, hg, Except.instMonad, Except.bind, Except.map, Except.pure, pure] at hok
        cases hstrip : optTruthy (List.lookup "strip_v" c) with
        | true =>
          simp only [hstrip, if_true] at hok
          cases w with
          | str t => simp at hok; exact ⟨.str (pyLstripV t), hok.symm⟩
          | none => simp at hok
          | bool b => simp at hok
          | int n => simp at hok
          | list xs => simp at hok
          | dict xs => simp at hok
        | false =>
          simp only [hstrip, Bool.false_eq_true, if_false] at hok
          simp at hok
          exact ⟨w, hok.symm⟩
  | false =>
  simp only [hgh, Bool.false_eq_true, if_false] at hok
  cases hcu : optEqStr (List.lookup "type" c) "custom" with
  | true =>
    simp only [hcu, if_true] at hok
    cases hp : pySubscript (PyVal.dict c) "command" with
    | error e => simp [hp, Except.instMonad, Except.bind, Except.map, Except.pure, pure] at hok
    | ok cmd =>
      simp only [hp, Except.instMonad, Except.bind, Except.map, Except.pure, pure] at hok
      cases cmd with
      | str cs =>
        cases hc : get_latest_custom env cs with
        | error e =>
          simp [hc, Except.instMonad, Except.bind, Except.map, Except.pure, pure] at hok
        | ok w =>
          simp [hc, Except.instMonad, Except.bind, Except.map, Except.pure, pure] at hok
          exact ⟨.str w, hok.symm⟩
      | none => simp at hok
      | bool b => simp at hok
      | int n => simp at hok
      | list xs => simp at hok
      | dict xs => simp at hok
  | false =>
  exfalso
  simp [recognizedKind, hnpm, hpypi, hgh, hcu] at hrec

theorem mem_keys_dictInsert (d : List (String × PyVal)) (k : String) (v : PyVal)
    (a : String) :
    a ∈ (dictInsert d k v).map Prod.fst ↔ a = k ∨ a ∈ d.map Prod.fst := by
  induction d with
  | nil => simp [dictInsert]
  | cons hd tl ih =>
    obtain ⟨k0, v0⟩ := hd
    by_cases hk : k0 = k
    · subst hk
      simp [dictInsert]
    · simp only [dictInsert, if_neg hk, List.map_cons, List.mem_cons, ih]
      tauto

theorem mem_keys_buildVersions_aux (rs : List (String × Option PyVal))
    (acc : List (String × PyVal)) (a : String) :
    a ∈ (rs.foldl
      (fun d sv =>
        match sv.2 with
        | some v => dictInsert d sv.1 v
        | Option.none => d) acc).map Prod.fst ↔
      a ∈ acc.map Prod.fst ∨ ∃ v, (a, some v) ∈ rs := by
  induction rs generalizing acc with
  | nil => simp
  | cons hd tl ih =>
    obtain ⟨s, ov⟩ := hd
    cases ov with
    | none =>
      simp only [List.foldl_cons, ih]
      constructor
      · rintro (h | ⟨v, hv⟩)
        · exact Or.inl h
        · exact Or.inr ⟨v, List.mem_cons_of_mem _ hv⟩
      · rintro (h | ⟨v, hv⟩)
        · exact Or.inl h
        · rcases List.mem_cons.mp hv with heq | htl
          · cases heq
          · exact Or.inr ⟨v, htl⟩
    | some w =>
      simp only [List.foldl_cons, ih, mem_keys_dictInsert]
      constructor
      · rintro ((rfl | h) | ⟨v, hv⟩)
        · exact Or.inr ⟨w, List.mem_cons_self _ _⟩
        · exact Or.inl h
        · exact Or.inr ⟨v, List.mem_cons_of_mem _ hv⟩
      · rintro (h | ⟨v, hv⟩)
        · exact Or.inl (Or.inr h)
        · rcases List.mem_cons.mp hv with heq | htl
          · exact Or.inl (Or.inl (congrArg Prod.fst heq))
          · exact Or.inr ⟨v, htl⟩

theorem mem_keys_buildVersions (rs : List (String × Option PyVal)) (a : String) :
    a ∈ (buildVersions rs).map Prod.fst ↔ ∃ v, (a, some v) ∈ rs := by
  unfold buildVersions
  rw [mem_keys_buildVersions_aux]
  simp

theorem mem_objEntries (wiki : List (String × PyVal)) (a : String)
    (c : List (String × PyVal)) :
    (a, c) ∈ objEntries wiki ↔ (a, PyVal.dict c) ∈ wiki := by
  unfold objEntries
  rw [List.mem_filterMap]
  constructor
  · rintro ⟨⟨s, v⟩, hin, hf⟩
    cases v with
    | dict d =>
      simp only [Option.some.injEq, Prod.mk.injEq] at hf
      obtain ⟨rfl, rfl⟩ := hf
      exact hin
    | none => simp at hf
    | bool b => simp at hf
    | int n => simp at hf
    | str s2 => simp at hf
    | list xs => simp at hf
  · intro hin
    exact ⟨(a, PyVal.dict c), hin, rfl⟩

theorem objEntries_keys_sublist (wiki : List (String × PyVal)) :
    ((objEntries wiki).map Prod.fst).Sublist (wiki.map Prod.fst) := by
  induction wiki with
  | nil => simp [objEntries]
  | cons hd tl ih =>
    obtain ⟨s, v⟩ := hd
    cases v with
    | dict d => simpa [objEntries] using ih.cons₂ s
    | none => simpa [objEntries] using ih.cons s
    | bool b => simpa [objEntries] using ih.cons s
    | int n => simpa [objEntries] using ih.cons s
    | str s2 => simpa [objEntries] using ih.cons s
    | list xs => simpa [objEntries] using ih.cons s

theorem assoc_value_unique {β : Type} (l : List (String × β))
    (hnodup : (l.map Prod.fst).Nodup) (a : String) (b1 b2 : β)
    (h1 : (a, b1) ∈ l) (h2 : (a, b2) ∈ l) : b1 = b2 := by
  induction l with
  | nil => simp at h1
  | cons hd tl ih =>
    obtain ⟨s, v⟩ := hd
    simp only [List.map_cons, List.nodup_cons] at hnodup
    rcases List.mem_cons.mp h1 with he1 | ht1
    · rcases List.mem_cons.mp h2 with he2 | ht2
      · obtain ⟨rfl, rfl⟩ := Prod.mk.inj he1
        obtain ⟨_, rfl⟩ := Prod.mk.inj he2
        rfl
      · obtain ⟨rfl, rfl⟩ := Prod.mk.inj he1
        exact absurd (List.mem_map_of_mem Prod.fst ht2) hnodup.1
    · rcases List.mem_cons.mp h2 with he2 | ht2
      · obtain ⟨rfl, rfl⟩ := Prod.mk.inj he2
        exact absurd (List.mem_map_of_mem Prod.fst ht1) hnodup.1
      · exact ih hnodup.2 ht1 ht2

theorem mem_keys_versionsOf (env : Env) (wiki : List (String × PyVal)) (a : String) :
    a ∈ (versionsOf env wiki).map Prod.fst ↔
      ∃ c v, (a, c) ∈ objEntries wiki ∧ (fetch_version env a c).1.2 = some v := by
  unfold versionsOf
  rw [mem_keys_buildVersions]
  unfold mainResults seqRun
  constructor
  · rintro ⟨v, hv⟩
    rw [List.map_map, List.mem_map] at hv
    obtain ⟨⟨s, c⟩, hin, hf⟩ := hv
    simp only [Function.comp] at hf
    have hs : s = a := by
      have h1 := fetch_version_fst env s c
      rw [hf] at h1
      simpa using h1.symm
    subst hs
    exact ⟨c, v, hin, by rw [hf]⟩
  · rintro ⟨c, v, hin, hf⟩
    refine ⟨v, ?_⟩
    rw [List.map_map, List.mem_map]
    refine ⟨(a, c), hin, ?_⟩
    simp only [Function.comp]
    have h1 := fetch_version_fst env a c
    ext <;> simp [h1, hf]

theorem fetch_failure_reported (env : Env) (wiki : List (String × PyVal)) (s : String)
    (c : List (String × PyVal)) (e : String)
    (hnodup : (wiki.map Prod.fst).Nodup)
    (hmem : (s, PyVal.dict c) ∈ wiki)
    (hfail : fetch_version_core env c = .error e) :
    s ∉ (versionsOf env wiki).map Prod.fst ∧
    (fetch_version env s c).2 = ["Error fetching version for " ++ s ++ ": " ++ e] ∧
    ("Error fetching version for " ++ s ++ ": " ++ e) ∈ (runMain env wiki).stderrLines := by
  have hfv := fetch_version_of_core_error env s c e hfail
  refine ⟨?_, by rw [hfv], ?_⟩
  · intro habs
    rw [mem_keys_versionsOf] at habs
    obtain ⟨c2, v, hin2, hv⟩ := habs
    have hc2 : c2 = c := by
      have hw2 := (mem_objEntries wiki s c2).mp hin2
      have := assoc_value_unique wiki hnodup s (PyVal.dict c2) (PyVal.dict c) hw2 hmem
      exact PyVal.dict.inj this
    subst hc2
    rw [hfv] at hv
    simp at hv
  · unfold runMain
    simp only [RunOutput.mk.injEq]
    rw [List.mem_flatten]
    refine ⟨(fetch_version env s c).2, ?_, by rw [hfv]; exact List.mem_singleton.mpr rfl⟩
    rw [List.mem_map]
    refine ⟨fetch_version env s c, ?_, rfl⟩
    unfold seqRun
    rw [List.mem_map]
    exact ⟨(s, c), (mem_objEntries wiki s c).mpr hmem, rfl⟩

theorem buildVersions_eq_nil (rs : List (String × Option PyVal))
    (h : ∀ p ∈ rs, p.2 = Option.none) : buildVersions rs = [] := by
  induction rs with
  | nil => rfl
  | cons hd tl ih =>
    obtain ⟨s, ov⟩ := hd
    have hnone : ov = Option.none := h (s, ov) (List.mem_cons_self _ _)
    subst hnone
    unfold buildVersions at ih ⊢
    simp only [List.foldl_cons]
    exact ih fun p hp => h p (List.mem_cons_of_mem _ hp)

theorem gatherStep_length (env : Env) (specs : List (String × List (String × PyVal)))
    (acc : List (Option ((String × Option PyVal) × List String))) (i : Nat) :
    (gatherStep env specs acc i).length = acc.length := by
  unfold gatherStep
  cases specs[i]? <;> simp

theorem gather_getElem (env : Env) (specs : List (String × List (String × PyVal)))
    (order : List Nat) (j : Nat) :
    ∀ acc : List (Option ((String × Option PyVal) × List String)),
      acc.length = specs.length →
      (order.foldl (gatherStep env specs) acc)[j]? =
        if j ∈ order ∧ j < specs.length
        then (specs[j]?).map (fun sc => some (fetch_version env sc.1 sc.2))
        else acc[j]? := by
  induction order with
  | nil => intro acc hacc; simp
  | cons i rest ih =>
    intro acc hacc
    simp only [List.foldl_cons]
    rw [ih (gatherStep env specs acc i) (by rw [gatherStep_length, hacc])]
    by_cases hjr : j ∈ rest ∧ j < specs.length
    · rw [if_pos hjr, if_pos ⟨List.mem_cons_of_mem _ hjr.1, hjr.2⟩]
    · rw [if_neg hjr]
      by_cases hji : j = i
      · subst hji
        by_cases hlt : j < specs.length
        · obtain ⟨sc, hsp⟩ : ∃ sc, specs[j]? = some sc :=
            ⟨_, List.getElem?_eq_getElem hlt⟩
          rw [if_pos ⟨List.mem_cons_self _ _, hlt⟩, hsp]
          unfold gatherStep
          rw [hsp]
          simp only [Option.map_some]
          exact List.getElem?_set_eq_of_lt _ (by rw [hacc]; exact hlt)
        · have hsp : specs[j]? = Option.none := List.getElem?_eq_none (by omega)
          rw [if_neg (by tauto)]
          unfold gatherStep
          rw [hsp]
      · have hcond : ¬(j ∈ i :: rest ∧ j < specs.length) := by
          rintro ⟨hm, hlt⟩
          rcases List.mem_cons.mp hm with rfl | hm2
          · exact hji rfl
          · exact hjr ⟨hm2, hlt⟩
        rw [if_neg hcond]
        unfold gatherStep
        cases hsp : specs[i]? with
        | none => rfl
        | some sc => exact List.getElem?_set_ne (fun h => hji h.symm)

theorem gatherRun_eq_seqRun (env : Env) (specs : List (String × List (String × PyVal)))
    (order : List Nat) (h : order.Perm (List.range specs.length)) :
    gatherRun env specs order = (seqRun env specs).map some := by
  apply List.ext_getElem?
  intro j
  unfold gatherRun
  rw [gather_getElem env specs order j _ (List.length_replicate _ _)]
  have hmem : j ∈ order ↔ j < specs.length := by
    rw [h.mem_iff, List.mem_range]
  by_cases hlt : j < specs.length
  · rw [if_pos ⟨hmem.mpr hlt, hlt⟩]
    rw [List.getElem?_map]
    unfold seqRun
    rw [List.getElem?_map]
    cases specs[j]? <;> rfl
  · rw [if_neg (by tauto)]
    have h1 : (List.replicate specs.length
        (Option.none : Option ((String × Option PyVal) × List String)))[j]? = Option.none :=
      List.getElem?_eq_none (by simp; omega)
    have h2 : ((seqRun env specs).map some)[j]? = Option.none :=
      List.getElem?_eq_none (by simp [seqRun]; omega)
    rw [h1, h2]

theorem reduceOption_map_some {α : Type} (l : List α) :
    (l.map some).reduceOption = l := by
  induction l with
  | nil => rfl
  | cons hd tl ih => simp [List.reduceOption_cons_of_some, ih]

/-! ### Claim theorems -/

/-- Claim C2, as stated, is false: a ComponentSpec with an unrecognized
kind yields an outcome with version `None` AND no recorded error
(no diagnostic line) — neither field populated. -/
theorem C2_counterexample :
    (fetch_version envNetFail "comp" cfgUnknown).1.2 = Option.none ∧
    (fetch_version envNetFail "comp" cfgUnknown).2 = [] :=
  ⟨rfl, rfl⟩

/-- Claim C2 (amended): for every ComponentSpec whose kind is one of the
four recognized kinds, exactly one of the outcome's version and error is
populated — version `some` with no diagnostic, or version `None` with a
diagnostic. Unrecognized kinds yield neither. -/
theorem C2_recognized_exactly_one (env : Env) (s : String) (c : List (String × PyVal))
    (hrec : recognizedKind c = true) :
    ((fetch_version env s c).1.2.isSome = true ∧ (fetch_version env s c).2 = []) ∨
    ((fetch_version env s c).1.2 = Option.none ∧ (fetch_version env s c).2 ≠ []) := by
  cases hcore : fetch_version_core env c with
  | ok v =>
    obtain ⟨w, rfl⟩ := core_ok_isSome env c v hrec hcore
    left
    rw [fetch_version_of_core_ok env s c _ hcore]
    exact ⟨rfl, rfl⟩
  | error e =>
    right
    rw [fetch_version_of_core_error env s c e hcore]
    exact ⟨rfl, by simp⟩

/-- Claim C2 witness: a recognized npm spec under a failing network has
exactly the error populated. -/
theorem C2_witness :
    recognizedKind cfgNpm = true ∧
    (((fetch_version envNetFail "alpha" cfgNpm).1.2.isSome = true ∧
        (fetch_version envNetFail "alpha" cfgNpm).2 = []) ∨
      ((fetch_version envNetFail "alpha" cfgNpm).1.2 = Option.none ∧
        (fetch_version envNetFail "alpha" cfgNpm).2 ≠ [])) :=
  ⟨rfl, C2_recognized_exactly_one envNetFail "alpha" cfgNpm rfl⟩

/-- Claim C4: a ComponentSpec whose declared kind is not one of the four
recognized kinds is absent from the report and produces no diagnostic
line. -/
theorem C4_unrecognized_skipped (env : Env) (wiki : List (String × PyVal))
    (s : String) (c : List (String × PyVal))
    (hnodup : (wiki.map Prod.fst).Nodup)
    (hmem : (s, PyVal.dict c) ∈ wiki)
    (hkind : recognizedKind c = false) :
    s ∉ (versionsOf env wiki).map Prod.fst ∧ (fetch_version env s c).2 = [] := by
  have hcore := core_unrecognized env c hkind
  have hfv := fetch_version_of_core_ok env s c _ hcore
  refine ⟨?_, by rw [hfv]⟩
  intro habs
  rw [mem_keys_versionsOf] at habs
  obtain ⟨c2, v, hin2, hv⟩ := habs
  have hc2 : c2 = c := PyVal.dict.inj
    (assoc_value_unique wiki hnodup s _ _ ((mem_objEntries wiki s c2).mp hin2) hmem)
  subst hc2
  rw [hfv] at hv
  simp at hv

/-- Claim C4 witness: kind `cargo` is silently skipped in a run where a
sibling npm component succeeds. -/
theorem C4_witness :
    (([("good", PyVal.dict cfgNpm), ("weird", PyVal.dict cfgUnknown),
        ("meta", PyVal.str "x")].map Prod.fst).Nodup) ∧
    recognizedKind cfgUnknown = false ∧
    ("weird" ∉ (versionsOf envNpm130
        [("good", PyVal.dict cfgNpm), ("weird", PyVal.dict cfgUnknown),
         ("meta", PyVal.str "x")]).map Prod.fst ∧
      (fetch_version envNpm130 "weird" cfgUnknown).2 = []) :=
  ⟨by decide, rfl,
    C4_unrecognized_skipped envNpm130 _ "weird" cfgUnknown (by decide)
      (by simp [cfgNpm, cfgUnknown]) rfl⟩

/-- Claim C5: a ComponentSpec whose fetch raises is absent from the
report, and its fetch prints exactly one diagnostic line — a line of the
form `"Error fetching version for " ++ name ++ ": " ++ detail`, which
contains the component's name — which appears on the run's error
stream. -/
theorem C5_failed_fetch_reported (env : Env) (wiki : List (String × PyVal))
    (s : String) (c : List (String × PyVal)) (e : String)
    (hnodup : (wiki.map Prod.fst).Nodup)
    (hmem : (s, PyVal.dict c) ∈ wiki)
    (hfail : fetch_version_core env c = .error e) :
    s ∉ (versionsOf env wiki).map Prod.fst ∧
    (fetch_version env s c).2 = ["Error fetching version for " ++ s ++ ": " ++ e] ∧
    ("Error fetching version for " ++ s ++ ": " ++ e) ∈ (runMain env wiki).stderrLines :=
  fetch_failure_reported env wiki s c e hnodup hmem hfail

/-- Claim C5 witness: a failing custom probe is reported once and
omitted. -/
theorem C5_witness :
    (([("beta", PyVal.dict cfgCustom)].map Prod.fst).Nodup) ∧
    fetch_version_core envNetFail cfgCustom = .error "Command failed: probe exploded" ∧
    ("beta" ∉ (versionsOf envNetFail [("beta", PyVal.dict cfgCustom)]).map Prod.fst ∧
      (fetch_version envNetFail "beta" cfgCustom).2 =
        ["Error fetching version for " ++ "beta" ++ ": " ++ "Command failed: probe exploded"] ∧
      ("Error fetching version for " ++ "beta" ++ ": " ++ "Command failed: probe exploded") ∈
        (runMain envNetFail [("beta", PyVal.dict cfgCustom)]).stderrLines) :=
  ⟨by decide, rfl,
    C5_failed_fetch_reported envNetFail _ "beta" cfgCustom _ (by decide)
      (by simp [cfgCustom]) rfl⟩

/-- Claim C6: every key of the report is the name of an object-valued
entry of the configuration document. -/
theorem C6_report_keys_from_config (env : Env) (wiki : List (String × PyVal))
    (k : String) :
    k ∈ (versionsOf env wiki).map Prod.fst → ∃ c, (k, PyVal.dict c) ∈ wiki := by
  intro h
  rw [mem_keys_versionsOf] at h
  obtain ⟨c, v, hin, _⟩ := h
  exact ⟨c, (mem_objEntries wiki k c).mp hin⟩

/-- Claim C6 witness: a successful run's report key is traced back to
its configuration entry. -/
theorem C6_witness :
    "alpha" ∈ (versionsOf envNpm130 [("alpha", PyVal.dict cfgNpm)]).map Prod.fst ∧
    (∃ c, ("alpha", PyVal.dict c) ∈ [("alpha", PyVal.dict cfgNpm)]) :=
  ⟨by decide, C6_report_keys_from_config envNpm130 _ "alpha" (by decide)⟩

/-- Claim C7: the per-component operation always returns an outcome
carrying the component's name; every internal failure is converted into
the error branch (one diagnostic line, version `None`) and no exception
escapes `fetch_version`. -/
theorem C7_no_escape (env : Env) (s : String) (c : List (String × PyVal)) :
    (fetch_version env s c).1.1 = s ∧
    ((∃ v, fetch_version env s c = ((s, v), [])) ∨
      (∃ e, fetch_version env s c = ((s, Option.none),
        ["Error fetching version for " ++ s ++ ": " ++ e]))) := by
  refine ⟨fetch_version_fst env s c, ?_⟩
  cases hcore : fetch_version_core env c with
  | ok v => exact Or.inl ⟨v, fetch_version_of_core_ok env s c v hcore⟩
  | error e => exact Or.inr ⟨e, fetch_version_of_core_error env s c e hcore⟩

/-- Claim C1, as stated, is false: on release tag `"vv2.3.1"` with the
strip flag set, the code (`v.lstrip("v")`) removes BOTH leading `v`
characters and yields `"2.3.1"`, while the claim's "single leading
non-numeric prefix character dropped" yields `"v2.3.1"`. -/
theorem C1_counterexample :
    (fetch_version envGhTagVV "comp" cfgGhStrip).1.2 = some (.str "2.3.1") ∧
    specDropOneLeadingNonNumeric "vv2.3.1" = "v2.3.1" ∧
    ("2.3.1" : String) ≠ "v2.3.1" :=
  ⟨rfl, by decide, by decide⟩

/-- Claim C1 (amended): for a github-kind spec whose release tag is
`tag`, a truthy strip flag yields the tag with ALL leading `v`
characters removed (Python `lstrip("v")`); an absent or falsy flag
yields the tag unchanged. -/
theorem C1_github_strip (env : Env) (s : String) (c : List (String × PyVal))
    (r : PyVal) (tag : String)
    (ht : List.lookup "type" c = some (.str "github"))
    (hr : List.lookup "repo" c = some r)
    (htag : get_latest_github_release env (pyStr r) = .ok (.str tag)) :
    (optTruthy (List.lookup "strip_v" c) = true →
      (fetch_version env s c).1.2 = some (.str (pyLstripV tag))) ∧
    (optTruthy (List.lookup "strip_v" c) = false →
      (fetch_version env s c).1.2 = some (.str tag)) := by
  constructor <;> intro hstrip
  · have hcore : fetch_version_core env c = .ok (some (.str (pyLstripV tag))) := by
      simp [fetch_version_core, ht, optEqStr, pySubscript, hr, htag, hstrip,
        Except.instMonad, Except.bind, Except.map, Except.pure, pure]
    rw [fetch_version_of_core_ok env s c _ hcore]
  · have hcore : fetch_version_core env c = .ok (some (.str tag)) := by
      simp [fetch_version_core, ht, optEqStr, pySubscript, hr, htag, hstrip,
        Except.instMonad, Except.bind, Except.map, Except.pure, pure]
    rw [fetch_version_of_core_ok env s c _ hcore]

/-- Claim C1 witness: tag `"v2.3.1"` with `strip_v = true` yields
`"2.3.1"`; without the flag it is returned unchanged. -/
theorem C1_witness :
    List.lookup "type" cfgGhStrip = some (PyVal.str "github") ∧
    optTruthy (List.lookup "strip_v" cfgGhStrip) = true ∧
    (fetch_version envGhTagV "comp" cfgGhStrip).1.2 = some (.str (pyLstripV "v2.3.1")) ∧
    pyLstripV "v2.3.1" = "2.3.1" ∧
    (fetch_version envGhTagV "comp" cfgGhPlain).1.2 = some (.str "v2.3.1") :=
  ⟨rfl, rfl,
    (C1_github_strip envGhTagV "comp" cfgGhStrip (PyVal.str "o/r") "v2.3.1" rfl rfl rfl).1 rfl,
    by decide,
    (C1_github_strip envGhTagV "comp" cfgGhPlain (PyVal.str "o/r") "v2.3.1" rfl rfl rfl).2 rfl⟩

/-- Claim C3: with each task's fetch result held fixed (tasks share no
mutable state, so a task's outcome does not depend on when it is
scheduled), gathering the tasks under ANY completion order produces
exactly the per-task outcomes of sequential execution in configuration
order, and hence the identical report; no successful outcome is altered
or dropped. -/
theorem C3_concurrent_eq_sequential (env : Env)
    (specs : List (String × List (String × PyVal))) (order : List Nat)
    (h : order.Perm (List.range specs.length)) :
    gatherRun env specs order = (seqRun env specs).map some ∧
    buildVersions (((gatherRun env specs order).reduceOption).map (·.1)) =
      buildVersions ((seqRun env specs).map (·.1)) := by
  have heq := gatherRun_eq_seqRun env specs order h
  refine ⟨heq, ?_⟩
  rw [heq, reduceOption_map_some]

/-- Claim C3 witness: two tasks completing in reversed order produce the
sequential results. -/
theorem C3_witness :
    ([1, 0] : List Nat).Perm
      (List.range ([("alpha", cfgNpm), ("beta", cfgUnknown)].length)) ∧
    gatherRun envNetFail [("alpha", cfgNpm), ("beta", cfgUnknown)] [1, 0] =
      (seqRun envNetFail [("alpha", cfgNpm), ("beta", cfgUnknown)]).map some :=
  ⟨by decide,
    (C3_concurrent_eq_sequential envNetFail [("alpha", cfgNpm), ("beta", cfgUnknown)]
      [1, 0] (by decide)).1⟩

/-- Claim C8, as stated, is false in its failure half: for a probe
exiting non-zero with stderr `"boom\n"`, the failure detail is
`"Command failed: boom"` (a fixed message carrying the WHITESPACE-STRIPPED
stderr), not the standard-error content `"boom\n"` itself. -/
theorem C8_counterexample :
    fetch_version_core envCmdBoom cfgCustom = .error "Command failed: boom" ∧
    ("Command failed: boom" : String) ≠ "boom\n" :=
  ⟨rfl, by decide⟩

/-- Claim C8 (amended): for a custom-probe spec, exit status zero yields
the version equal to stdout trimmed of surrounding whitespace; a
non-zero exit is a failure whose detail is `"Command failed: "` followed
by the stderr content trimmed of surrounding whitespace. -/
theorem C8_custom_probe (env : Env) (s : String) (c : List (String × PyVal))
    (cmd : String) (rc : Int) (out err : String)
    (ht : List.lookup "type" c = some (.str "custom"))
    (hc : List.lookup "command" c = some (.str cmd))
    (hrun : env.runCmd cmd = (rc, out, err)) :
    (rc = 0 → fetch_version env s c = ((s, some (.str (pyStrip out))), [])) ∧
    (rc ≠ 0 → fetch_version env s c = ((s, Option.none),
      ["Error fetching version for " ++ s ++ ": " ++
        ("Command failed: " ++ pyStrip err)])) := by
  constructor <;> intro hrc
  · have hcore : fetch_version_core env c = .ok (some (.str (pyStrip out))) := by
      simp [fetch_version_core, ht, optEqStr, pySubscript, hc, get_latest_custom, hrun, hrc,
        Except.instMonad, Except.bind, Except.map, Except.pure, pure]
    rw [fetch_version_of_core_ok env s c _ hcore]
  · have hcore : fetch_version_core env c = .error ("Command failed: " ++ pyStrip err) := by
      simp [fetch_version_core, ht, optEqStr, pySubscript, hc, get_latest_custom, hrun, hrc,
        Except.instMonad, Except.bind, Except.map, Except.pure, pure]
    rw [fetch_version_of_core_error env s c _ hcore]

/-- Claim C8 witness: a probe exiting 0 with stdout `" 1.2 \n"` yields
version `"1.2"`. -/
theorem C8_witness :
    List.lookup "type" cfgCustom = some (PyVal.str "custom") ∧
    envCmdOk.runCmd "probe --version" = (0, " 1.2 \n", "") ∧
    fetch_version envCmdOk "gamma" cfgCustom =
      (("gamma", some (PyVal.str (pyStrip " 1.2 \n"))), []) ∧
    pyStrip " 1.2 \n" = "1.2" :=
  ⟨rfl, rfl,
    (C8_custom_probe envCmdOk "gamma" cfgCustom "probe --version" 0 " 1.2 \n" ""
      rfl rfl rfl).1 rfl,
    by decide⟩

/-- Claim C9: every run exits 0 and emits the serialized report followed
by a trailing newline; when every object-valued entry's fetch yields no
version (all fail, or there are no object-valued entries at all), the
emitted output is exactly the empty report `\x7b\x7d` plus newline. -/
theorem C9_best_effort_report (env : Env) (wiki : List (String × PyVal)) :
    (runMain env wiki).exitCode = 0 ∧
    (runMain env wiki).stdout = renderReport (versionsOf env wiki) ++ "\n" ∧
    ((∀ sc ∈ objEntries wiki, (fetch_version env sc.1 sc.2).1.2 = Option.none) →
      (runMain env wiki).stdout = "\x7b\x7d\n") := by
  refine ⟨rfl, rfl, ?_⟩
  intro hall
  have hnil : versionsOf env wiki = [] := by
    apply buildVersions_eq_nil
    intro p hp
    unfold mainResults seqRun at hp
    rw [List.map_map, List.mem_map] at hp
    obtain ⟨sc, hsc, rfl⟩ := hp
    exact hall sc hsc
  have h1 : (runMain env wiki).stdout = renderReport (versionsOf env wiki) ++ "\n" := rfl
  have h2 : renderReport [] = "\x7b\x7d" := by simp [renderReport, renderJson]
  rw [h1, hnil, h2]
  decide

/-- Claim C9 witness: a run whose only object-valued entry fails emits
exactly the empty report and exits 0. -/
theorem C9_witness :
    (runMain envNetFail [("beta", PyVal.dict cfgCustom), ("note", PyVal.str "hi")]).stdout =
      "\x7b\x7d\n" ∧
    (runMain envNetFail [("beta", PyVal.dict cfgCustom), ("note", PyVal.str "hi")]).exitCode = 0 :=
  ⟨(C9_best_effort_report envNetFail _).2.2
      (by
        rintro ⟨s0, c0⟩ hsc
        simp [objEntries] at hsc
        obtain ⟨rfl, rfl⟩ := hsc
        rfl),
    (C9_best_effort_report envNetFail _).1⟩

/-- Claim C10: a recognized-kind spec missing its required params field
fails like any other fetch: the missing-key exception is caught, one
diagnostic line naming the component reaches the error stream, and the
component is omitted from the report — the run does not crash and the
spec is not silently skipped. -/
theorem C10_missing_field_is_failure (env : Env) (wiki : List (String × PyVal))
    (s : String) (c : List (String × PyVal))
    (hnodup : (wiki.map Prod.fst).Nodup)
    (hmem : (s, PyVal.dict c) ∈ wiki)
    (hmiss :
      (List.lookup "type" c = some (.str "npm") ∧ List.lookup "package" c = Option.none) ∨
      (List.lookup "type" c = some (.str "pypi") ∧ List.lookup "package" c = Option.none) ∨
      (List.lookup "type" c = some (.str "github") ∧ List.lookup "repo" c = Option.none) ∨
      (List.lookup "type" c = some (.str "custom") ∧ List.lookup "command" c = Option.none)) :
    ∃ e, s ∉ (versionsOf env wiki).map Prod.fst ∧
      (fetch_version env s c).2 = ["Error fetching version for " ++ s ++ ": " ++ e] ∧
      ("Error fetching version for " ++ s ++ ": " ++ e) ∈ (runMain env wiki).stderrLines := by
  have hcore : ∃ e, fetch_version_core env c = .error e := by
    rcases hmiss with ⟨ht, hk⟩ | ⟨ht, hk⟩ | ⟨ht, hk⟩ | ⟨ht, hk⟩
    · exact ⟨"\x27package\x27", by
        simp [fetch_version_core, ht, optEqStr, pySubscript, hk,
          Except.instMonad, Except.bind, Except.map, Except.pure, pure]⟩
    · exact ⟨"\x27package\x27", by
        simp [fetch_version_core, ht, optEqStr, pySubscript, hk,
          Except.instMonad, Except.bind, Except.map, Except.pure, pure]⟩
    · exact ⟨"\x27repo\x27", by
        simp [fetch_version_core, ht, optEqStr, pySubscript, hk,
          Except.instMonad, Except.bind, Except.map, Except.pure, pure]⟩
    · exact ⟨"\x27command\x27", by
        simp [fetch_version_core, ht, optEqStr, pySubscript, hk,
          Except.instMonad, Except.bind, Except.map, Except.pure, pure]⟩
  obtain ⟨e, he⟩ := hcore
  exact ⟨e, fetch_failure_reported env wiki s c e hnodup hmem he⟩

/-- Claim C10 witness: a github spec without `repo` is reported as a
failed fetch and omitted from the report. -/
theorem C10_witness :
    (([("gamma", PyVal.dict cfgGhNoRepo)].map Prod.fst).Nodup) ∧
    List.lookup "type" cfgGhNoRepo = some (PyVal.str "github") ∧
    List.lookup "repo" cfgGhNoRepo = Option.none ∧
    (∃ e, "gamma" ∉ (versionsOf envNetFail [("gamma", PyVal.dict cfgGhNoRepo)]).map Prod.fst ∧
      (fetch_version envNetFail "gamma" cfgGhNoRepo).2 =
        ["Error fetching version for " ++ "gamma" ++ ": " ++ e] ∧
      ("Error fetching version for " ++ "gamma" ++ ": " ++ e) ∈
        (runMain envNetFail [("gamma", PyVal.dict cfgGhNoRepo)]).stderrLines) :=
  ⟨by decide, rfl, rfl,
    C10_missing_field_is_failure envNetFail _ "gamma" cfgGhNoRepo (by decide)
      (by simp [cfgGhNoRepo]) (Or.inr (Or.inr (Or.inl ⟨rfl, rfl⟩)))⟩
